import Mathlib

/-!
Verification development for the credential issuance and verification
subsystem of the ishare task API (Go source under internal/auth,
internal/config and the OAuth manager / models files).

Modelling conventions:
* Go strings are modelled as `List Char` (`Str`); Go byte slices as
  `List Nat` (each element a byte value).
* Time is modelled as `Int` Unix seconds; `time.Duration` values are held
  in seconds (the config loader builds `hours * time.Hour`, so 24h is
  86400 seconds).  `t1.Before(t2)` is `t1 < t2`.
* External library primitives (HMAC-SHA256, base64url RawURLEncoding,
  JSON marshal/unmarshal of string/number maps, uuid String/Parse) are
  collected in a `Codec` record; theorems take the pointwise properties
  of these primitives they need as hypotheses, and a concrete
  `simpleCodec` instantiates them in witnesses.
* JSON payload values relevant to this code are strings and integral
  Unix-second numbers, modelled by `JsonVal`; a decoded JSON object
  (Go `map[string]interface\x7b\x7d`) is an association list with its keys
  distinct, looked up by `lookupField`.
* The gorm-backed stores are modelled as lists of records; `First` with a
  `Where` predicate is `List.find?`, `Delete` by primary key removes the
  records with the found record's id.  The gorm-managed `CreatedAt`
  columns and user password hashes play no role in any claim and are
  omitted from the record structures.
-/

/-- Go strings, modelled as lists of characters. -/
abbrev Str := List Char

/-- `strings.Split s sep` for a single-character separator.
`splitOnChar sep s` returns the substrings of `s` between occurrences of
`sep`; like Go, the result is never empty and splitting the empty string
yields `[""]`. -/
def splitOnChar (sep : Char) : Str → List Str
  | [] => [[]]
  | ch :: rest =>
    let r := splitOnChar sep rest
    if ch = sep then [] :: r
    else (ch :: r.headD []) :: r.tail

theorem splitOnChar_ne_nil (sep : Char) (s : Str) : splitOnChar sep s ≠ [] := by
  cases s with
  | nil => simp [splitOnChar]
  | cons ch rest =>
    simp only [splitOnChar]
    split <;> simp

theorem splitOnChar_no_sep (sep : Char) (a : Str) (h : sep ∉ a) :
    splitOnChar sep a = [a] := by
  induction a with
  | nil => rfl
  | cons ch rest ih =>
    simp only [List.mem_cons, not_or] at h
    have hne : ¬ch = sep := fun hh => h.1 hh.symm
    simp [splitOnChar, ih h.2, hne]

theorem splitOnChar_append_sep (sep : Char) (a rest : Str) (h : sep ∉ a) :
    splitOnChar sep (a ++ sep :: rest) = a :: splitOnChar sep rest := by
  induction a with
  | nil => simp [splitOnChar]
  | cons ch t ih =>
    simp only [List.mem_cons, not_or] at h
    have hne : ¬ch = sep := fun hh => h.1 hh.symm
    simp [splitOnChar, ih h.2, hne]

/-- Splitting a three-segment dot-joined string whose segments are free of
dots recovers exactly the three segments. -/
theorem splitOnChar_three (sep : Char) (a b c : Str)
    (ha : sep ∉ a) (hb : sep ∉ b) (hc : sep ∉ c) :
    splitOnChar sep (a ++ sep :: (b ++ sep :: c)) = [a, b, c] := by
  rw [splitOnChar_append_sep sep a _ ha, splitOnChar_append_sep sep b _ hb,
    splitOnChar_no_sep sep c hc]

/-- A decoded JSON value as produced by `json.Unmarshal` for the payloads
this code handles: strings, and numbers (all integral Unix seconds here;
Go decodes JSON numbers to float64, which is exact on these values). -/
inductive JsonVal where
  | str (s : Str)
  | num (n : Int)
deriving DecidableEq

/-- A decoded JSON object (`map[string]interface\x7b\x7d`): an association
list of field name / value pairs, keys distinct. -/
abbrev JsonObj := List (Str × JsonVal)

/-- Map lookup `payload[k]`. -/
def lookupField (k : Str) : JsonObj → Option JsonVal
  | [] => none
  | (k', v) :: rest => if k = k' then some v else lookupField k rest

/-- 128-bit identifier from github.com/google/uuid, abstracted to its value. -/
structure UUID where
  val : Nat
deriving DecidableEq

/-- models.User (gorm timestamps and password hash omitted; no claim reads
them). -/
structure User where
  id : UUID
  email : Str
deriving DecidableEq

/-- config.JWTConfig.  `expiration` holds the `time.Duration` in seconds;
config.Load sets it to `JWT_EXPIRATION_HOURS * 3600` (default 24h = 86400). -/
structure JWTConfig where
  secret : Str
  issuer : Str
  audience : Str
  expiration : Int
deriving DecidableEq

/-- config.OAuthConfig. -/
structure OAuthConfig where
  clientID : Str
  clientSecret : Str
  redirectURI : Str
deriving DecidableEq

/-- auth.JWTManager. -/
structure JWTManager where
  config : JWTConfig
deriving DecidableEq

/-- auth.Claims as filled in by ValidateJWS (sub, email, scope). -/
structure Claims where
  userID : UUID
  email : Str
  scope : Str
deriving DecidableEq

/-- External library primitives used by the auth package, kept abstract:
theorems assume only the pointwise properties of these functions that the
Go libraries guarantee (round-trips, dot-free base64url output). -/
structure Codec where
  hmacSHA256 : Str → Str → List Nat
  b64enc : List Nat → Str
  b64dec : Str → Option (List Nat)
  jsonMarshal : JsonObj → List Nat
  jsonParse : List Nat → Option JsonObj
  uuidString : UUID → Str
  uuidParse : Str → Option UUID

/-- JWTManager.sign: base64url-encoded HMAC-SHA256 of `input` under the
configured secret. -/
def JWTManager.sign (c : Codec) (j : JWTManager) (input : Str) : Str :=
  c.b64enc (c.hmacSHA256 j.config.secret input)

/-- The JWS header map built by GenerateJWS. -/
def jwsHeader : JsonObj :=
  [("alg".toList, JsonVal.str ("HS256".toList)),
   ("typ".toList, JsonVal.str ("JWT".toList))]

/-- The JWS payload map built by GenerateJWS: sub, email, scope, iss, aud,
exp = now + configured expiration, iat = nbf = now. -/
def jwsPayload (cfg : JWTConfig) (c : Codec) (user : User) (scope : Str)
    (now : Int) : JsonObj :=
  [("sub".toList, JsonVal.str (c.uuidString user.id)),
   ("email".toList, JsonVal.str user.email),
   ("scope".toList, JsonVal.str scope),
   ("iss".toList, JsonVal.str cfg.issuer),
   ("aud".toList, JsonVal.str cfg.audience),
   ("exp".toList, JsonVal.num (now + cfg.expiration)),
   ("iat".toList, JsonVal.num now),
   ("nbf".toList, JsonVal.num now)]

/-- JWTManager.GenerateJWS: encode header and payload, sign
`headerB64 ++ "." ++ payloadB64`, return the three-part dot-joined token. -/
def GenerateJWS (c : Codec) (j : JWTManager) (user : User) (scope : Str)
    (now : Int) : Str :=
  let headerB64 := c.b64enc (c.jsonMarshal jwsHeader)
  let payloadB64 := c.b64enc (c.jsonMarshal (jwsPayload j.config c user scope now))
  let signingInput := headerB64 ++ '.' :: payloadB64
  let signature := JWTManager.sign c j signingInput
  signingInput ++ '.' :: signature

/-- The claim-extraction tail of ValidateJWS: `payload[k].(string)` with the
zero value on a missing or non-string field. -/
def payloadStrField (k : Str) (payload : JsonObj) : Str :=
  match lookupField k payload with
  | some (JsonVal.str s) => s
  | _ => []

/-- The claim-extraction tail of ValidateJWS: require a string "sub" that
parses as a UUID, then read "email" and "scope" leniently. -/
def extractClaims (c : Codec) (payload : JsonObj) : Except Str Claims :=
  match lookupField ("sub".toList) payload with
  | some (JsonVal.str userIDStr) =>
    match c.uuidParse userIDStr with
    | some userID =>
      Except.ok { userID := userID,
                  email := payloadStrField ("email".toList) payload,
                  scope := payloadStrField ("scope".toList) payload }
    | none => Except.error ("invalid user ID format".toList)
  | _ => Except.error ("invalid user ID in token".toList)

/-- JWTManager.ValidateJWS: split on '.', require 3 segments, recompute and
compare the signature, decode and parse the payload, reject a numeric "exp"
in the past, then extract the claims. -/
def ValidateJWS (c : Codec) (j : JWTManager) (now : Int) (jws : Str) :
    Except Str Claims :=
  match splitOnChar '.' jws with
  | [headerB64, payloadB64, signatureB64] =>
    if signatureB64 ≠ JWTManager.sign c j (headerB64 ++ '.' :: payloadB64) then
      Except.error ("invalid signature".toList)
    else
      match c.b64dec payloadB64 with
      | none => Except.error ("base64 decode error".toList)
      | some payloadBytes =>
        match c.jsonParse payloadBytes with
        | none => Except.error ("json unmarshal error".toList)
        | some payload =>
          match lookupField ("exp".toList) payload with
          | some (JsonVal.num e) =>
            if e < now then Except.error ("token expired".toList)
            else extractClaims c payload
          | _ => extractClaims c payload
  | _ => Except.error ("invalid JWS format".toList)

/-- JWTManager.HasScope: false on an empty scope, otherwise an exact-match
search over the space-split scope list. -/
def HasScope (claims : Claims) (requiredScope : Str) : Bool :=
  if claims.scope = [] then false
  else (splitOnChar ' ' claims.scope).contains requiredScope

/-- models.AuthorizationCode (CreatedAt omitted; `code` carries a unique
database constraint). -/
structure AuthorizationCode where
  id : UUID
  code : Str
  userID : UUID
  clientID : Str
  scope : Str
  expiresAt : Int
deriving DecidableEq

/-- models.AccessToken (CreatedAt omitted; `token` carries a unique
database constraint). -/
structure AccessToken where
  id : UUID
  token : Str
  userID : UUID
  clientID : Str
  scope : Str
  expiresAt : Int
deriving DecidableEq

/-- auth.OAuthManager (the gorm handle is passed to each operation as an
explicit list of records). -/
structure OAuthManager where
  config : OAuthConfig
  jwt : JWTManager
deriving DecidableEq

/-- The `Where` predicate of ValidateAuthorizationCode:
`code = ? AND client_id = ? AND expires_at > now`. -/
def liveCode (code clientID : Str) (now : Int) (r : AuthorizationCode) : Bool :=
  r.code == code && r.clientID == clientID && decide (now < r.expiresAt)

/-- OAuthManager.ValidateAuthorizationCode: find a live matching code (one
merged error for absent, consumed and expired), check the client secret,
then delete the consumed record; returns the result and the store after. -/
def ValidateAuthorizationCode (o : OAuthManager) (db : List AuthorizationCode)
    (code clientID clientSecret : Str) (now : Int) :
    Except Str AuthorizationCode × List AuthorizationCode :=
  match db.find? (liveCode code clientID now) with
  | none => (Except.error ("invalid or expired authorization code".toList), db)
  | some authCode =>
    if clientSecret ≠ o.config.clientSecret then
      (Except.error ("invalid client secret".toList), db)
    else
      (Except.ok authCode, db.filter (fun r => decide (r.id ≠ authCode.id)))

/-- OAuthManager.CreateAccessToken: mint a JWS for `\x7bID: userID\x7d` and the
scope, and persist a record expiring a fixed 24 hours from now.  `newID` is
the fresh gorm primary key. -/
def CreateAccessToken (c : Codec) (o : OAuthManager) (db : List AccessToken)
    (userID : UUID) (clientID scope : Str) (now : Int) (newID : UUID) :
    AccessToken × List AccessToken :=
  let user : User := { id := userID, email := [] }
  let tokenString := GenerateJWS c o.jwt user scope now
  let accessToken : AccessToken :=
    { id := newID, token := tokenString, userID := userID,
      clientID := clientID, scope := scope, expiresAt := now + 24 * 3600 }
  (accessToken, db ++ [accessToken])

/-- Outcome of the Authenticate middleware: a 401 rejection (JSON error
body + Abort), or the context bindings plus c.Next(). -/
inductive AuthOutcome where
  | unauthorized (message : Str)
  | proceed (user : User) (claims : Claims) (token : AccessToken)
deriving DecidableEq

/-- AuthMiddleware.Authenticate: require a `Bearer <token>` header, validate
the JWS, require a live store record for the exact token string, resolve the
user, then bind user/claims/token and continue. -/
def Authenticate (c : Codec) (jwt : JWTManager) (tokens : List AccessToken)
    (users : List User) (authHeader : Str) (now : Int) : AuthOutcome :=
  if authHeader = [] then
    AuthOutcome.unauthorized ("Authorization header required".toList)
  else
    match splitOnChar ' ' authHeader with
    | [p0, tokenString] =>
      if p0 ≠ "Bearer".toList then
        AuthOutcome.unauthorized
          ("Invalid authorization header format. Use Bearer token".toList)
      else
        match ValidateJWS c jwt now tokenString with
        | Except.error _ =>
          AuthOutcome.unauthorized ("Invalid or expired token".toList)
        | Except.ok claims =>
          match tokens.find?
              (fun t => t.token == tokenString && decide (now < t.expiresAt)) with
          | none =>
            AuthOutcome.unauthorized ("Token not found or expired".toList)
          | some accessToken =>
            match users.find? (fun u => u.id == claims.userID) with
            | none => AuthOutcome.unauthorized ("User not found".toList)
            | some user => AuthOutcome.proceed user claims accessToken
    | _ =>
      AuthOutcome.unauthorized
        ("Invalid authorization header format. Use Bearer token".toList)

/-- Decimal rendering of a natural number, used by the concrete witness
codec (digits only, so never a dot). -/
def natToStr (n : Nat) : Str := (Nat.repr n).toList

/-- Value of a decimal digit character. -/
def charDigit (ch : Char) : Option Nat :=
  if 48 ≤ ch.toNat ∧ ch.toNat ≤ 57 then some (ch.toNat - 48) else none

/-- Decimal parsing, partial inverse of `natToStr`. -/
def strToNat (s : Str) : Option Nat :=
  match s with
  | [] => none
  | _ =>
    s.foldl
      (fun acc ch =>
        match acc, charDigit ch with
        | some a, some d => some (a * 10 + d)
        | _, _ => none)
      (some 0)

/-- Witness byte-list encoding: comma-separated decimals (never a dot). -/
def bytesEnc (bs : List Nat) : Str :=
  List.intercalate (",".toList) (bs.map natToStr)

/-- Partial inverse of `bytesEnc`. -/
def bytesDec (s : Str) : Option (List Nat) :=
  match s with
  | [] => some []
  | _ => (splitOnChar ',' s).mapM strToNat

/-- Witness JSON-ish encoding: length-prefixed string bytes. -/
def encStr (s : Str) : List Nat := s.length :: s.map Char.toNat

/-- Witness JSON-ish encoding of a value, tagged by constructor and sign. -/
def encVal : JsonVal → List Nat
  | JsonVal.str s => 0 :: encStr s
  | JsonVal.num n => if 0 ≤ n then [1, n.toNat] else [2, (-n).toNat]

/-- Witness JSON-ish encoding of an object: field count, then the
length-prefixed key/value pairs in order. -/
def encObj (o : JsonObj) : List Nat :=
  o.length :: o.foldr (fun kv acc => encStr kv.1 ++ encVal kv.2 ++ acc) []

/-- Witness decoder for `encStr`. -/
def decStr : List Nat → Option (Str × List Nat)
  | [] => none
  | len :: rest =>
    if len ≤ rest.length then
      some ((rest.take len).map Char.ofNat, rest.drop len)
    else none

/-- Witness decoder for `encVal`. -/
def decVal : List Nat → Option (JsonVal × List Nat)
  | 0 :: rest => (decStr rest).map (fun p => (JsonVal.str p.1, p.2))
  | 1 :: n :: rest => some (JsonVal.num (Int.ofNat n), rest)
  | 2 :: n :: rest => some (JsonVal.num (-(Int.ofNat n)), rest)
  | _ => none

/-- Witness decoder for a counted sequence of key/value pairs. -/
def decPairs : Nat → List Nat → Option (JsonObj × List Nat)
  | 0, rest => some ([], rest)
  | k + 1, rest =>
    match decStr rest with
    | none => none
    | some (key, r1) =>
      match decVal r1 with
      | none => none
      | some (v, r2) =>
        match decPairs k r2 with
        | none => none
        | some (obj, r3) => some ((key, v) :: obj, r3)

/-- Witness decoder, partial inverse of `encObj`. -/
def decObj (b : List Nat) : Option JsonObj :=
  match b with
  | [] => none
  | n :: rest =>
    match decPairs n rest with
    | some (obj, []) => some obj
    | _ => none

/-- A concrete, trivially computable instantiation of the library
primitives, used to evaluate the theorems on closed inputs.  Its MAC is a
keyed copy of the input; its encodings are decimal/length-prefixed and
produce no dot characters. -/
def simpleCodec : Codec where
  hmacSHA256 := fun secret input => (secret ++ input).map Char.toNat
  b64enc := bytesEnc
  b64dec := bytesDec
  jsonMarshal := encObj
  jsonParse := decObj
  uuidString := fun u => natToStr u.val
  uuidParse := fun s => (strToNat s).map UUID.mk

/-- Lookup of "exp" in a generated payload. -/
theorem jwsPayload_exp (cfg : JWTConfig) (c : Codec) (user : User) (scope : Str)
    (now : Int) :
    lookupField ("exp".toList) (jwsPayload cfg c user scope now)
      = some (JsonVal.num (now + cfg.expiration)) := rfl

/-- Lookup of "sub" in a generated payload. -/
theorem jwsPayload_sub (cfg : JWTConfig) (c : Codec) (user : User) (scope : Str)
    (now : Int) :
    lookupField ("sub".toList) (jwsPayload cfg c user scope now)
      = some (JsonVal.str (c.uuidString user.id)) := rfl

/-- Extracting claims from a generated payload recovers the user id, email
and scope, provided the user id round-trips through the uuid printer and
parser. -/
theorem extractClaims_jwsPayload (cfg : JWTConfig) (c : Codec) (user : User)
    (scope : Str) (now : Int)
    (huuid : c.uuidParse (c.uuidString user.id) = some user.id) :
    extractClaims c (jwsPayload cfg c user scope now)
      = Except.ok { userID := user.id, email := user.email, scope := scope } := by
  unfold extractClaims
  rw [jwsPayload_sub]
  simp only [huuid]
  rfl

/-- C10: HasScope claims required is true exactly when the claims carry a
non-empty scope string and required appears verbatim among the components
of splitting that string on single spaces; in particular it is false on an
empty scope, and no prefix, hierarchical or wildcard matching occurs. -/
theorem c10_hasScope_iff (claims : Claims) (requiredScope : Str) :
    HasScope claims requiredScope = true ↔
      claims.scope ≠ [] ∧ requiredScope ∈ splitOnChar ' ' claims.scope := by
  unfold HasScope
  by_cases h : claims.scope = []
  · simp [h]
  · simp only [h, if_false, ne_eq, not_false_eq_true, true_and]
    rw [List.contains_iff_exists_mem_beq]
    constructor
    · rintro ⟨a, ha, hbeq⟩
      rwa [show requiredScope = a from by simpa using hbeq]
    · intro hm
      exact ⟨requiredScope, hm, by simp⟩

/-- C5: ValidateJWS rejects any input that does not split on '.' into
exactly three segments with the malformed-token error; and any
three-segment input whose third segment differs from the recomputed
HMAC-SHA256 signature over the first two is rejected with the
invalid-signature error for every choice of payload-decoding primitives
(b64dec, jsonParse, uuidParse) — the payload is not decoded or inspected
before the signature comparison succeeds. -/
theorem c5_structure_then_signature (c : Codec) (j : JWTManager) (now : Int)
    (jws : Str) :
    ((splitOnChar '.' jws).length ≠ 3 →
      ValidateJWS c j now jws = Except.error ("invalid JWS format".toList)) ∧
    (∀ hB pB sg, splitOnChar '.' jws = [hB, pB, sg] →
      sg ≠ JWTManager.sign c j (hB ++ '.' :: pB) →
      ∀ c' : Codec, c'.hmacSHA256 = c.hmacSHA256 → c'.b64enc = c.b64enc →
        ValidateJWS c' j now jws = Except.error ("invalid signature".toList)) := by
  constructor
  · intro hlen
    unfold ValidateJWS
    rcases hsp : splitOnChar '.' jws with _ | ⟨a, _ | ⟨b, _ | ⟨d, _ | ⟨e, t⟩⟩⟩⟩ <;>
      simp_all
  · intro hB pB sg hsp hne c' hh hb
    have hsign : JWTManager.sign c' j (hB ++ '.' :: pB)
        = JWTManager.sign c j (hB ++ '.' :: pB) := by
      unfold JWTManager.sign
      rw [hh, hb]
    unfold ValidateJWS
    rw [hsp]
    simp [hsign, hne]

/-- C6: a three-segment token with a valid signature whose decoded payload
carries a numeric "exp" strictly before the current time is rejected by
ValidateJWS with the token-expired error (and hence no claims). -/
theorem c6_expired_token_rejected (c : Codec) (j : JWTManager)
    (jws hB pB : Str) (bytes : List Nat) (payload : JsonObj) (e now : Int)
    (hsp : splitOnChar '.' jws = [hB, pB, JWTManager.sign c j (hB ++ '.' :: pB)])
    (hdec : c.b64dec pB = some bytes)
    (hparse : c.jsonParse bytes = some payload)
    (hexp : lookupField ("exp".toList) payload = some (JsonVal.num e))
    (hlt : e < now) :
    ValidateJWS c j now jws = Except.error ("token expired".toList) := by
  unfold ValidateJWS
  rw [hsp]
  simp at hexp
  simp [hdec, hparse, hexp, hlt]

/-- C4: a three-segment token with a valid signature whose decoded payload
has a string "sub" parsing as a UUID but no numeric "exp" field passes
ValidateJWS at every time: no expiry check is performed, no matter how old
the token is. -/
theorem c4_no_exp_accepted_at_any_time (c : Codec) (j : JWTManager)
    (jws hB pB sStr : Str) (bytes : List Nat) (payload : JsonObj) (uid : UUID)
    (hsp : splitOnChar '.' jws = [hB, pB, JWTManager.sign c j (hB ++ '.' :: pB)])
    (hdec : c.b64dec pB = some bytes)
    (hparse : c.jsonParse bytes = some payload)
    (hnoexp : ∀ n : Int, lookupField ("exp".toList) payload ≠ some (JsonVal.num n))
    (hsub : lookupField ("sub".toList) payload = some (JsonVal.str sStr))
    (huuid : c.uuidParse sStr = some uid) :
    ∀ now : Int, ValidateJWS c j now jws
      = Except.ok { userID := uid,
                    email := payloadStrField ("email".toList) payload,
                    scope := payloadStrField ("scope".toList) payload } := by
  intro now
  have hextract : extractClaims c payload
      = Except.ok { userID := uid,
                    email := payloadStrField ("email".toList) payload,
                    scope := payloadStrField ("scope".toList) payload } := by
    unfold extractClaims
    rw [hsub]
    simp only [huuid]
  unfold ValidateJWS
  rw [hsp]
  rcases hl : lookupField ("exp".toList) payload with _ | v
  · simp at hl
    simp [hdec, hparse, hl, hextract]
  · cases v with
    | str s =>
      simp at hl
      simp [hdec, hparse, hl, hextract]
    | num n => exact absurd hl (hnoexp n)

/-- C2: round-trip law.  For a user whose UUID round-trips through the uuid
printer and parser (a well-formed identifier) and any scope, with a positive
configured TTL, validating a generated token with the same manager before
the TTL elapses succeeds and returns claims whose UserID and Scope equal
the inputs.  The base64url/JSON hypotheses are the pointwise library
guarantees: encodings of the generated header, payload and MAC contain no
dot, and decoding inverts encoding on the generated payload. -/
theorem c2_generate_validate_roundtrip (c : Codec) (j : JWTManager)
    (user : User) (scope : Str) (now now2 : Int)
    (hpos : 0 < j.config.expiration)
    (htime : now2 < now + j.config.expiration)
    (hdotH : ('.' : Char) ∉ c.b64enc (c.jsonMarshal jwsHeader))
    (hdotP : ('.' : Char) ∉
      c.b64enc (c.jsonMarshal (jwsPayload j.config c user scope now)))
    (hdotS : ('.' : Char) ∉ JWTManager.sign c j
      (c.b64enc (c.jsonMarshal jwsHeader) ++ '.' ::
        c.b64enc (c.jsonMarshal (jwsPayload j.config c user scope now))))
    (hb64 : c.b64dec (c.b64enc (c.jsonMarshal (jwsPayload j.config c user scope now)))
      = some (c.jsonMarshal (jwsPayload j.config c user scope now)))
    (hjson : c.jsonParse (c.jsonMarshal (jwsPayload j.config c user scope now))
      = some (jwsPayload j.config c user scope now))
    (huuid : c.uuidParse (c.uuidString user.id) = some user.id) :
    ValidateJWS c j now2 (GenerateJWS c j user scope now)
      = Except.ok { userID := user.id, email := user.email, scope := scope } := by
  have hsplit : splitOnChar '.' (GenerateJWS c j user scope now)
      = [c.b64enc (c.jsonMarshal jwsHeader),
         c.b64enc (c.jsonMarshal (jwsPayload j.config c user scope now)),
         JWTManager.sign c j
           (c.b64enc (c.jsonMarshal jwsHeader) ++ '.' ::
             c.b64enc (c.jsonMarshal (jwsPayload j.config c user scope now)))] := by
    have h3 := splitOnChar_three '.' _ _ _ hdotH hdotP hdotS
    simpa [GenerateJWS, List.append_assoc] using h3
  have hexp := jwsPayload_exp j.config c user scope now
  have hextract := extractClaims_jwsPayload j.config c user scope now huuid
  have hnotlt : ¬(now + j.config.expiration < now2) := by omega
  unfold ValidateJWS
  rw [hsplit]
  simp at hexp
  simp [hb64, hjson, hexp, hnotlt, hextract]

/-- Concrete fixture: a user. -/
def wUser : User := { id := ⟨7⟩, email := "a".toList }

/-- Concrete fixture: a JWT config with a 10-second expiration. -/
def wCfg : JWTConfig :=
  { secret := "k".toList, issuer := [], audience := [], expiration := 10 }

/-- Concrete fixture: a JWT manager. -/
def wJWT : JWTManager := { config := wCfg }

/-- Concrete fixture: a token generated at time 0. -/
def wTok : Str := GenerateJWS simpleCodec wJWT wUser ("r".toList) 0

set_option maxRecDepth 40000 in
/-- Witness for C2 at the concrete fixtures: the TTL is positive, validation
happens before it elapses, and the validated claims return the user id and
scope. -/
theorem c2_witness :
    (0 : Int) < wCfg.expiration ∧ (1 : Int) < 0 + wCfg.expiration ∧
    ValidateJWS simpleCodec wJWT 1 wTok
      = Except.ok { userID := wUser.id, email := wUser.email, scope := "r".toList } :=
  ⟨by decide, by decide,
    c2_generate_validate_roundtrip simpleCodec wJWT wUser ("r".toList) 0 1
      (by decide) (by decide) (by decide) (by decide) (by decide)
      rfl rfl rfl⟩

set_option maxRecDepth 40000 in
/-- Witness for C6 at the concrete fixtures: the token generated at time 0
with a 10-second TTL is rejected as expired at time 11. -/
theorem c6_witness :
    (10 : Int) < 11 ∧
    ValidateJWS simpleCodec wJWT 11 wTok = Except.error ("token expired".toList) :=
  ⟨by decide,
    c6_expired_token_rejected simpleCodec wJWT wTok
      (simpleCodec.b64enc (simpleCodec.jsonMarshal jwsHeader))
      (simpleCodec.b64enc (simpleCodec.jsonMarshal
        (jwsPayload wCfg simpleCodec wUser ("r".toList) 0)))
      (simpleCodec.jsonMarshal (jwsPayload wCfg simpleCodec wUser ("r".toList) 0))
      (jwsPayload wCfg simpleCodec wUser ("r".toList) 0)
      10 11 rfl rfl rfl rfl (by decide)⟩

/-- Concrete fixture: a signed payload carrying only a "sub" field and in
particular no "exp" field. -/
def wPayloadNoExp : JsonObj := [("sub".toList, JsonVal.str (natToStr 7))]

/-- Concrete fixture: a validly signed token over `wPayloadNoExp`. -/
def wTokNoExp : Str :=
  simpleCodec.b64enc (simpleCodec.jsonMarshal jwsHeader) ++ '.' ::
    (simpleCodec.b64enc (simpleCodec.jsonMarshal wPayloadNoExp) ++ '.' ::
      JWTManager.sign simpleCodec wJWT
        (simpleCodec.b64enc (simpleCodec.jsonMarshal jwsHeader) ++ '.' ::
          simpleCodec.b64enc (simpleCodec.jsonMarshal wPayloadNoExp)))

set_option maxRecDepth 40000 in
/-- Witness for C4 at the concrete fixtures: the validly signed token whose
payload has no "exp" field is accepted even a billion seconds later. -/
theorem c4_witness :
    lookupField ("exp".toList) wPayloadNoExp = none ∧
    ValidateJWS simpleCodec wJWT 1000000000 wTokNoExp
      = Except.ok { userID := ⟨7⟩, email := [], scope := [] } :=
  ⟨by decide,
    c4_no_exp_accepted_at_any_time simpleCodec wJWT wTokNoExp
      (simpleCodec.b64enc (simpleCodec.jsonMarshal jwsHeader))
      (simpleCodec.b64enc (simpleCodec.jsonMarshal wPayloadNoExp))
      (natToStr 7)
      (simpleCodec.jsonMarshal wPayloadNoExp)
      wPayloadNoExp ⟨7⟩
      rfl rfl rfl
      (by
        intro n h
        rw [show lookupField ("exp".toList) wPayloadNoExp = none from rfl] at h
        exact Option.noConfusion h)
      rfl rfl 1000000000⟩

set_option maxRecDepth 40000 in
/-- Witness for C5 at concrete inputs: a one-segment string is rejected as
malformed, and a three-segment string with a wrong signature is rejected
with the invalid-signature error. -/
theorem c5_witness :
    (splitOnChar '.' ("ab".toList)).length ≠ 3 ∧
    ValidateJWS simpleCodec wJWT 0 ("ab".toList)
      = Except.error ("invalid JWS format".toList) ∧
    ValidateJWS simpleCodec wJWT 0 ("a.b.c".toList)
      = Except.error ("invalid signature".toList) :=
  ⟨by decide,
    (c5_structure_then_signature simpleCodec wJWT 0 ("ab".toList)).1 (by decide),
    (c5_structure_then_signature simpleCodec wJWT 0 ("a.b.c".toList)).2
      ("a".toList) ("b".toList) ("c".toList) (by decide) (by decide)
      simpleCodec rfl rfl⟩

/-- Unfolding of the live-code store predicate. -/
theorem liveCode_iff (code clientID : Str) (now : Int) (r : AuthorizationCode) :
    liveCode code clientID now r = true ↔
      r.code = code ∧ r.clientID = clientID ∧ now < r.expiresAt := by
  simp [liveCode, Bool.and_eq_true, beq_iff_eq, decide_eq_true_eq, and_assoc]

/-- Concrete fixture: the registered OAuth client configuration. -/
def wOAuthCfg : OAuthConfig :=
  { clientID := "cid".toList, clientSecret := "s".toList, redirectURI := [] }

/-- Concrete fixture: an OAuth manager whose JWT expiration is one hour
(JWT_EXPIRATION_HOURS=1), not the default 24 hours. -/
def wOAuth1h : OAuthManager :=
  { config := wOAuthCfg,
    jwt := { config :=
      { secret := "k".toList, issuer := [], audience := [], expiration := 3600 } } }

/-- C1 counterexample: with a configured JWT expiration of one hour, the
"exp" embedded in the payload GenerateJWS signs during CreateAccessToken
(now + 3600) differs from the ExpiresAt stored on the persisted AccessToken
record (now + 86400), refuting the claimed equality for every configured
expiration. -/
theorem c1_counterexample :
    lookupField ("exp".toList)
        (jwsPayload wOAuth1h.jwt.config simpleCodec
          { id := ⟨7⟩, email := [] } ("r".toList) 0)
      ≠ some (JsonVal.num
        ((CreateAccessToken simpleCodec wOAuth1h [] ⟨7⟩ ("cid".toList)
            ("r".toList) 0 ⟨1⟩).fst.expiresAt)) := by
  decide

/-- C1 amended: for a token minted during code exchange, the payload "exp"
is now + the configured JWT expiration while the persisted record expires
at now + a fixed 24 hours, so the two coincide exactly when the configured
expiration is 24 hours (86400 seconds, the default configuration), not for
every configured value. -/
theorem c1_embedded_exp_eq_stored_iff (c : Codec) (o : OAuthManager)
    (db : List AccessToken) (userID newID : UUID) (clientID scope : Str)
    (now : Int) :
    lookupField ("exp".toList)
        (jwsPayload o.jwt.config c { id := userID, email := [] } scope now)
      = some (JsonVal.num
        ((CreateAccessToken c o db userID clientID scope now newID).fst.expiresAt))
    ↔ o.jwt.config.expiration = 24 * 3600 := by
  rw [jwsPayload_exp]
  unfold CreateAccessToken
  simp only [Option.some.injEq, JsonVal.num.injEq]
  constructor
  · intro h
    omega
  · intro h
    rw [h]

/-- Evaluation of ValidateAuthorizationCode when the store lookup fails. -/
theorem VAC_none (o : OAuthManager) (db : List AuthorizationCode)
    (code clientID clientSecret : Str) (now : Int)
    (hf : db.find? (liveCode code clientID now) = none) :
    ValidateAuthorizationCode o db code clientID clientSecret now
      = (Except.error ("invalid or expired authorization code".toList), db) := by
  unfold ValidateAuthorizationCode
  rw [hf]

/-- Evaluation of ValidateAuthorizationCode when the store lookup finds a
live record. -/
theorem VAC_found (o : OAuthManager) (db : List AuthorizationCode)
    (code clientID clientSecret : Str) (now : Int) (rec : AuthorizationCode)
    (hf : db.find? (liveCode code clientID now) = some rec) :
    ValidateAuthorizationCode o db code clientID clientSecret now
      = if clientSecret ≠ o.config.clientSecret then
          (Except.error ("invalid client secret".toList), db)
        else
          (Except.ok rec, db.filter (fun r => decide (r.id ≠ rec.id))) := by
  unfold ValidateAuthorizationCode
  rw [hf]

/-- C3: single use.  If an exchange succeeds (returning the record and the
store with that record deleted), then any second exchange of the same code
string against the resulting store fails with the invalid-grant error,
whatever client id, secret and time it uses.  The store is assumed to hold
pairwise distinct code strings, as enforced by the unique constraint on the
code column. -/
theorem c3_code_single_use (o : OAuthManager) (db db2 : List AuthorizationCode)
    (code clientID clientSecret clientID2 clientSecret2 : Str) (now now2 : Int)
    (rec : AuthorizationCode)
    (huniq : db.Pairwise (fun a b => a.code ≠ b.code))
    (h1 : ValidateAuthorizationCode o db code clientID clientSecret now
      = (Except.ok rec, db2)) :
    (ValidateAuthorizationCode o db2 code clientID2 clientSecret2 now2).fst
      = Except.error ("invalid or expired authorization code".toList) := by
  rcases hf : db.find? (liveCode code clientID now) with _ | a
  · rw [VAC_none o db code clientID clientSecret now hf] at h1
    simp at h1
  · rw [VAC_found o db code clientID clientSecret now a hf] at h1
    by_cases hs : clientSecret ≠ o.config.clientSecret
    · rw [if_pos hs] at h1
      simp at h1
    · rw [if_neg hs] at h1
      have ha : a = rec := by
        have := congrArg Prod.fst h1
        simpa using this
      subst ha
      have hdb : db.filter (fun r => decide (r.id ≠ a.id)) = db2 := by
        have := congrArg Prod.snd h1
        simpa using this
      have hmem := List.mem_of_find?_eq_some hf
      have hpa := List.find?_some hf
      have hacode : a.code = code := ((liveCode_iff code clientID now a).mp hpa).1
      have hnone : db2.find? (liveCode code clientID2 now2) = none := by
        rw [List.find?_eq_none]
        intro r hr hlr
        rw [← hdb] at hr
        have hrdb := List.mem_of_mem_filter hr
        have hid : r.id ≠ a.id := by simpa using List.of_mem_filter hr
        have hrcode : r.code = code := ((liveCode_iff code clientID2 now2 r).mp hlr).1
        have hrne : r ≠ a := fun hh => hid (by rw [hh])
        have hcodes : r.code ≠ a.code :=
          huniq.forall (fun _ _ hh => Ne.symm hh) hrdb hmem hrne
        exact hcodes (hrcode.trans hacode.symm)
      rw [VAC_none o db2 code clientID2 clientSecret2 now2 hnone]

/-- C8: the error returned when the looked-up code is expired equals the
error returned when it is absent (never issued or already consumed): all
three failure causes produce the one merged invalid-grant error value. -/
theorem c8_expired_and_absent_identical (o o2 : OAuthManager)
    (db db2 : List AuthorizationCode) (code cid sec code2 cid2 sec2 : Str)
    (now now2 : Int)
    (hexp : ∀ r ∈ db, r.code = code → r.clientID = cid → r.expiresAt ≤ now)
    (habs : ∀ r ∈ db2, r.code ≠ code2) :
    (ValidateAuthorizationCode o db code cid sec now).fst
      = (ValidateAuthorizationCode o2 db2 code2 cid2 sec2 now2).fst ∧
    (ValidateAuthorizationCode o db code cid sec now).fst
      = Except.error ("invalid or expired authorization code".toList) := by
  have h1 : db.find? (liveCode code cid now) = none := by
    rw [List.find?_eq_none]
    intro r hr hl
    obtain ⟨ha, hb, hc⟩ := (liveCode_iff code cid now r).mp hl
    exact absurd hc (not_lt.mpr (hexp r hr ha hb))
  have h2 : db2.find? (liveCode code2 cid2 now2) = none := by
    rw [List.find?_eq_none]
    intro r hr hl
    exact habs r hr ((liveCode_iff code2 cid2 now2 r).mp hl).1
  rw [VAC_none o db code cid sec now h1, VAC_none o2 db2 code2 cid2 sec2 now2 h2]
  exact ⟨rfl, rfl⟩

/-- C9: with a live matching code but a wrong client secret, the exchange
fails with the invalid-client-secret error and leaves the store unchanged,
and the same exchange with the correct secret still succeeds, consuming the
record. -/
theorem c9_wrong_secret_preserves_code (o : OAuthManager)
    (db : List AuthorizationCode) (code cid secret : Str) (now : Int)
    (rec : AuthorizationCode)
    (hfind : db.find? (liveCode code cid now) = some rec)
    (hsec : secret ≠ o.config.clientSecret) :
    ValidateAuthorizationCode o db code cid secret now
        = (Except.error ("invalid client secret".toList), db) ∧
    ValidateAuthorizationCode o db code cid o.config.clientSecret now
        = (Except.ok rec, db.filter (fun r => decide (r.id ≠ rec.id))) := by
  rw [VAC_found o db code cid secret now rec hfind,
    VAC_found o db code cid o.config.clientSecret now rec hfind]
  constructor
  · rw [if_pos hsec]
  · rw [if_neg (by simp)]

/-- C7: a request whose bearer token passes ValidateJWS but has no
non-expired AccessToken record with that exact token string in the store is
rejected by the Authenticate middleware with a 401 response, and the next
handler is never invoked (no principal is bound). -/
theorem c7_unknown_token_rejected (c : Codec) (jwt : JWTManager)
    (tokens : List AccessToken) (users : List User) (tokenString : Str)
    (now : Int) (claims : Claims)
    (hnospace : (' ' : Char) ∉ tokenString)
    (hvalid : ValidateJWS c jwt now tokenString = Except.ok claims)
    (hnotok : ∀ t ∈ tokens, t.token = tokenString → t.expiresAt ≤ now) :
    Authenticate c jwt tokens users ("Bearer".toList ++ ' ' :: tokenString) now
        = AuthOutcome.unauthorized ("Token not found or expired".toList) ∧
    ∀ u cl tk,
      Authenticate c jwt tokens users ("Bearer".toList ++ ' ' :: tokenString) now
        ≠ AuthOutcome.proceed u cl tk := by
  have hsp : splitOnChar ' ' ("Bearer".toList ++ ' ' :: tokenString)
      = ["Bearer".toList, tokenString] := by
    rw [splitOnChar_append_sep ' ' _ _ (by decide),
      splitOnChar_no_sep ' ' tokenString hnospace]
  have hfind : tokens.find?
      (fun t => t.token == tokenString && decide (now < t.expiresAt)) = none := by
    rw [List.find?_eq_none]
    intro t ht hl
    simp only [Bool.and_eq_true, beq_iff_eq, decide_eq_true_eq] at hl
    exact absurd hl.2 (not_lt.mpr (hnotok t ht hl.1))
  have hmain : Authenticate c jwt tokens users
      ("Bearer".toList ++ ' ' :: tokenString) now
      = AuthOutcome.unauthorized ("Token not found or expired".toList) := by
    unfold Authenticate
    simp at hsp
    simp [hsp, hvalid, hfind]
  refine ⟨hmain, ?_⟩
  intro u cl tk h
  rw [hmain] at h
  exact AuthOutcome.noConfusion h

/-- Concrete fixture: a live authorization code record. -/
def wAuthCode : AuthorizationCode :=
  { id := ⟨1⟩, code := "c".toList, userID := ⟨7⟩, clientID := "cid".toList,
    scope := "r".toList, expiresAt := 100 }

/-- Concrete fixture: an OAuth manager with the registered client and the
10-second JWT config. -/
def wOAuth : OAuthManager := { config := wOAuthCfg, jwt := wJWT }

/-- Witness for C3 at the concrete fixtures: the first exchange succeeds
and deletes the record, the immediate second exchange of the same code
fails with the invalid-grant error. -/
theorem c3_witness :
    ValidateAuthorizationCode wOAuth [wAuthCode] ("c".toList) ("cid".toList)
        ("s".toList) 0 = (Except.ok wAuthCode, []) ∧
    (ValidateAuthorizationCode wOAuth [] ("c".toList) ("cid".toList)
        ("s".toList) 0).fst
      = Except.error ("invalid or expired authorization code".toList) :=
  ⟨rfl,
    c3_code_single_use wOAuth [wAuthCode] [] ("c".toList) ("cid".toList)
      ("s".toList) ("cid".toList) ("s".toList) 0 0 wAuthCode
      (List.pairwise_singleton _ _) rfl⟩

/-- Concrete fixture: an authorization code record already expired at time 5. -/
def wExpiredCode : AuthorizationCode :=
  { id := ⟨2⟩, code := "c".toList, userID := ⟨7⟩, clientID := "cid".toList,
    scope := "r".toList, expiresAt := 3 }

/-- Witness for C8 at the concrete fixtures: exchanging an expired code and
exchanging against an empty store return the same invalid-grant error. -/
theorem c8_witness :
    (ValidateAuthorizationCode wOAuth [wExpiredCode] ("c".toList) ("cid".toList)
        ("s".toList) 5).fst
      = (ValidateAuthorizationCode wOAuth [] ("c".toList) ("cid".toList)
        ("s".toList) 5).fst ∧
    (ValidateAuthorizationCode wOAuth [wExpiredCode] ("c".toList) ("cid".toList)
        ("s".toList) 5).fst
      = Except.error ("invalid or expired authorization code".toList) :=
  c8_expired_and_absent_identical wOAuth wOAuth [wExpiredCode] [] ("c".toList)
    ("cid".toList) ("s".toList) ("c".toList) ("cid".toList) ("s".toList) 5 5
    (by decide) (by decide)

/-- Witness for C9 at the concrete fixtures: a wrong secret fails and leaves
the record in place; the correct secret then consumes it. -/
theorem c9_witness :
    ValidateAuthorizationCode wOAuth [wAuthCode] ("c".toList) ("cid".toList)
        ("wrong".toList) 0
      = (Except.error ("invalid client secret".toList), [wAuthCode]) ∧
    ValidateAuthorizationCode wOAuth [wAuthCode] ("c".toList) ("cid".toList)
        ("s".toList) 0 = (Except.ok wAuthCode, []) :=
  c9_wrong_secret_preserves_code wOAuth [wAuthCode] ("c".toList) ("cid".toList)
    ("wrong".toList) 0 wAuthCode rfl (by decide)

set_option maxRecDepth 40000 in
/-- Witness for C7 at the concrete fixtures: the generated token passes
ValidateJWS, but with an empty access-token store the middleware rejects
the request with the token-not-found 401. -/
theorem c7_witness :
    ValidateJWS simpleCodec wJWT 1 wTok
      = Except.ok { userID := wUser.id, email := wUser.email, scope := "r".toList } ∧
    Authenticate simpleCodec wJWT [] [] ("Bearer".toList ++ ' ' :: wTok) 1
      = AuthOutcome.unauthorized ("Token not found or expired".toList) :=
  ⟨rfl,
    (c7_unknown_token_rejected simpleCodec wJWT [] [] wTok 1
      { userID := wUser.id, email := wUser.email, scope := "r".toList }
      (by decide) rfl (by simp)).1⟩
